import Mathlib

/-!
# aricpp: the `Bridge` resource handle (`aricpp/bridge.h`)

A shallow embedding of `class Bridge`.  A handle is the pair of its two data
members, `id` and `client`.  Every member function becomes a pure function
returning an `Outcome`: the handle after the call, the `Proxy` it returns and
the requests it handed to the transport, in order.  Objects that can alias
(move-assignment compares `&rhs` with `this`) live in a `Heap` indexed by
address.
-/

namespace aricpp

/-! ## Collaborators declared in headers outside `bridge.h` -/

/-- Address of the shared `Client` a handle points to (`Client* client`). -/
abbrev ClientRef := Nat

/-- One request handed to the transport: the `method` and `path` arguments of a
`Client::RawCmd` call, and the client it was made on. -/
structure RawCmd where
  client : ClientRef
  method : String
  path : String
deriving DecidableEq

/-- Modelled from the spec: `proxy.h` is not part of the sources.  A `Proxy` is the
deferred result of an operation: either the canonical pre-resolved empty success
(spec 4.1), or the pending result of one dispatched command (spec 4.2). -/
inductive Proxy where
  | Empty : Proxy
  | Pending : RawCmd → Proxy
deriving DecidableEq

/-- Modelled from the spec: `Proxy::CreateEmpty()` of the missing `proxy.h`, the
pre-resolved empty success; it sends nothing. -/
def Proxy.CreateEmpty : Proxy × List RawCmd :=
  (Proxy.Empty, [])

/-- Modelled from the spec: `Proxy::Command(method, request, client)` of the missing
`proxy.h`.  Spec 4.2: the dispatcher builds and sends the command and allocates its
deferred result, so exactly this one request reaches the transport. -/
def Proxy.Command (method request : String) (client : ClientRef) : Proxy × List RawCmd :=
  (Proxy.Pending ⟨client, method, request⟩, [⟨client, method, request⟩])

/-- Modelled from the spec: `class Channel` is declared outside `bridge.h`; the handle
code only reads its identifier through `Id()`. -/
structure Channel where
  id : String
deriving DecidableEq

/-- The accessor `Channel::Id()`. -/
def Channel.Id (ch : Channel) : String := ch.id

/-- Modelled from the spec: `class TerminationDtmf` of the missing `terminationdtmf.h`,
a smart enum of the same shape as `Role`; `bridge.h` only converts it to its string. -/
structure TerminationDtmf where
  value : String
deriving DecidableEq

/-- The conversion `static_cast<std::string>(terminateOn)`. -/
def TerminationDtmf.toStdString (t : TerminationDtmf) : String := t.value

/-- Modelled from the spec: the constant `TerminationDtmf::none` of the missing
`terminationdtmf.h`, the default of `Record`; the spec names the sentinel `none`. -/
def TerminationDtmf.none : TerminationDtmf := ⟨"none"⟩

/-! ## The C++ standard library pieces the header uses -/

/-- The test `std::string::empty()`. -/
def empty (s : String) : Bool := s.data.isEmpty

/-- The string left by `std::string::clear()`. -/
def clear (_s : String) : String := ""

/-- The string left by `std::string::pop_back()`: the last character is removed. -/
def pop_back (s : String) : String := ⟨s.data.dropLast⟩

/-- The function `std::to_string(int)`: decimal digits, with a leading minus sign for
a negative value. -/
def to_string (n : Int) : String :=
  if n < 0 then "-" ++ Nat.repr n.natAbs else Nat.repr n.natAbs

/-! ## `class Bridge` -/

/-- The smart enum `Bridge::Role`: a wrapper of its wire string (`const std::string value`). -/
structure Role where
  value : String
deriving DecidableEq

/-- The conversion `Role::operator std::string()`. -/
def Role.toStdString (r : Role) : String := r.value

/-- The constant `RoleBase<Dummy>::announce{"announce"}`. -/
def Role.announce : Role := ⟨"announce"⟩

/-- The constant `RoleBase<Dummy>::partecipant{"partecipant"}`. -/
def Role.partecipant : Role := ⟨"partecipant"⟩

/-- The data members of `class Bridge`: `std::string id; Client* client;`. -/
structure Bridge where
  id : String
  client : ClientRef
deriving DecidableEq

/-- What one member-function call does: the handle afterwards, the returned `Proxy`
and the requests sent, in order. -/
structure Outcome where
  self : Bridge
  result : Proxy
  sent : List RawCmd
deriving DecidableEq

/-- Packs the handle after a call with what `Proxy::Command` / `Proxy::CreateEmpty`
returned and sent. -/
def Outcome.of (self : Bridge) (r : Proxy × List RawCmd) : Outcome :=
  ⟨self, r.1, r.2⟩

namespace Bridge

/-- The constructor `Bridge(const std::string& _id, Client& _client)`: wraps a bridge
that already exists. -/
def wrap (_id : String) (_client : ClientRef) : Bridge := ⟨_id, _client⟩

/-- The member `bool IsDead() const { return id.empty(); }`. -/
def IsDead (b : Bridge) : Bool := empty b.id

/-- The member `Proxy& Add(const Channel& ch, Role role)`. -/
def Add (b : Bridge) (ch : Channel) (role : Role) : Outcome :=
  Outcome.of b (Proxy.Command "POST"
    ("/ari/bridges/" ++ b.id ++ "/addChannel?channel=" ++ ch.Id ++
      "&role=" ++ role.toStdString)
    b.client)

/-- The call `Add(ch)` with the default argument `role=Role::partecipant`. -/
def AddDefault (b : Bridge) (ch : Channel) : Outcome :=
  b.Add ch Role.partecipant

/-- The loop of `Add(std::initializer_list<const Channel*>)`:
`req += (*ch)->Id() + ','` for every channel, in order. -/
def AddLoop (req : String) (chs : List Channel) : String :=
  chs.foldl (fun r ch => r ++ (ch.Id ++ ",")) req

/-- The member `Proxy& Add(std::initializer_list<const Channel*> chs)`. -/
def AddList (b : Bridge) (chs : List Channel) : Outcome :=
  let req := "/ari/bridges/" ++ b.id ++ "/addChannel?channel="
  let req := AddLoop req chs
  let req := pop_back req
  Outcome.of b (Proxy.Command "POST" req b.client)

/-- The member `Proxy& Remove(const Channel& ch)`. -/
def Remove (b : Bridge) (ch : Channel) : Outcome :=
  Outcome.of b (Proxy.Command "POST"
    ("/ari/bridges/" ++ b.id ++ "/removeChannel?channel=" ++ ch.Id)
    b.client)

/-- The member `Proxy& StartMoh(const std::string& mohClass)`. -/
def StartMoh (b : Bridge) (mohClass : String) : Outcome :=
  let query := "/ari/bridges/" ++ b.id ++ "/moh"
  let query := if !empty mohClass then query ++ ("?mohClass" ++ mohClass) else query
  Outcome.of b (Proxy.Command "POST" query b.client)

/-- The member `Proxy& StopMoh()`. -/
def StopMoh (b : Bridge) : Outcome :=
  Outcome.of b (Proxy.Command "DELETE" ("/ari/bridges/" ++ b.id ++ "/moh") b.client)

/-- The member `Proxy& Play(media, lang, playbackId, offsetms, skipms) const`. -/
def Play (b : Bridge) (media lang playbackId : String) (offsetms skipms : Int) : Outcome :=
  Outcome.of b (Proxy.Command "POST"
    ("/ari/bridges/" ++ b.id ++ "/play?" ++
      "media=" ++ media ++
      (if empty lang then "" else "&lang=" ++ lang) ++
      (if empty playbackId then "" else "&playbackId=" ++ playbackId) ++
      (if offsetms < 0 then "" else "&offsetms=" ++ to_string offsetms) ++
      (if skipms < 0 then "" else "&skipms=" ++ to_string skipms))
    b.client)

/-- The member `Proxy& Record(name, format, maxDurationSeconds, maxSilenceSeconds,
ifExists, beep, terminateOn) const`. -/
def Record (b : Bridge) (name format : String) (maxDurationSeconds maxSilenceSeconds : Int)
    (ifExists : String) (beep : Bool) (terminateOn : TerminationDtmf) : Outcome :=
  Outcome.of b (Proxy.Command "POST"
    ("/ari/bridges/" ++ b.id ++ "/record?" ++
      "name=" ++ name ++
      "&format=" ++ format ++
      "&terminateOn=" ++ terminateOn.toStdString ++
      (if beep then "&beep=true" else "&beep=false") ++
      (if empty ifExists then "" else "&ifExists=" ++ ifExists) ++
      (if maxDurationSeconds < 0 then ""
        else "&maxDurationSeconds=" ++ to_string maxDurationSeconds) ++
      (if maxSilenceSeconds < 0 then ""
        else "&maxSilenceSeconds=" ++ to_string maxSilenceSeconds))
    b.client)

/-- The member `Proxy& Destroy()`: the guard, then `id.clear()`, then the command
built from the member `id` as it is at that point. -/
def Destroy (b : Bridge) : Outcome :=
  if b.IsDead then Outcome.of b Proxy.CreateEmpty
  else
    let b1 : Bridge := ⟨clear b.id, b.client⟩
    Outcome.of b1 (Proxy.Command "DELETE" ("/ari/bridges/" ++ b1.id) b1.client)

/-- The destructor `~Bridge() { Destroy(); }`: the body runs `Destroy()` and drops the
returned reference. -/
def dtor (b : Bridge) : Outcome := b.Destroy

/-- The move constructor `Bridge(Bridge&& rhs) : id(rhs.id), client(rhs.client)
{ rhs.id.clear(); }`: the new object and `rhs` afterwards. -/
def moveCtor (rhs : Bridge) : Bridge × Bridge :=
  let new : Bridge := ⟨rhs.id, rhs.client⟩
  (new, ⟨clear rhs.id, rhs.client⟩)

/-- The body of `operator=(Bridge&& rhs)` inside `if ( &rhs != this )`, statement by
statement: the assigned object and `rhs` afterwards. -/
def moveAssignBody (self rhs : Bridge) : Bridge × Bridge :=
  let self1 : Bridge := ⟨rhs.id, self.client⟩
  let self2 : Bridge := ⟨self1.id, rhs.client⟩
  let rhs1 : Bridge := ⟨clear rhs.id, rhs.client⟩
  (self2, rhs1)

end Bridge

/-! ## Calls as data -/

/-- The operations of a handle together with their arguments. -/
inductive Op where
  | Add (ch : Channel) (role : Role)
  | AddList (chs : List Channel)
  | Remove (ch : Channel)
  | StartMoh (mohClass : String)
  | StopMoh
  | Play (media lang playbackId : String) (offsetms skipms : Int)
  | Record (name format : String) (maxDurationSeconds maxSilenceSeconds : Int)
      (ifExists : String) (beep : Bool) (terminateOn : TerminationDtmf)
  | Destroy
deriving DecidableEq

/-- Calls the member function an `Op` names. -/
def Bridge.invoke (b : Bridge) : Op → Outcome
  | Op.Add ch role => b.Add ch role
  | Op.AddList chs => b.AddList chs
  | Op.Remove ch => b.Remove ch
  | Op.StartMoh mohClass => b.StartMoh mohClass
  | Op.StopMoh => b.StopMoh
  | Op.Play media lang playbackId offsetms skipms =>
      b.Play media lang playbackId offsetms skipms
  | Op.Record name format maxDurationSeconds maxSilenceSeconds ifExists beep terminateOn =>
      b.Record name format maxDurationSeconds maxSilenceSeconds ifExists beep terminateOn
  | Op.Destroy => b.Destroy

/-! ## Destroy triggers -/

/-- The local destroy triggers of a handle: an explicit `Destroy()` call, or the handle
being discarded (its destructor runs). -/
inductive Trigger where
  | explicitDestroy
  | discard
deriving DecidableEq

/-- Runs one local destroy trigger. -/
def Bridge.fire (b : Bridge) : Trigger → Outcome
  | Trigger.explicitDestroy => b.Destroy
  | Trigger.discard => b.dtor

/-- Runs a sequence of local destroy triggers on one handle, each on the state the
previous one left, and lists the outcome of every trigger in order. -/
def Bridge.trace (b : Bridge) : List Trigger → List Outcome
  | [] => []
  | t :: ts => b.fire t :: Bridge.trace (b.fire t).self ts

/-- All requests sent by a list of outcomes, in order. -/
def sentBy : List Outcome → List RawCmd
  | [] => []
  | o :: os => o.sent ++ sentBy os

/-- The arrival of a `BridgeDestroyed` event for the bridge a handle holds.  `class Bridge`
has no member the event feed could call and nothing in `bridge.h` writes `id` on an
event, so the handle is as it was; the comment above the destructor says what the
caller does next: the destructor is run. -/
def Bridge.onBridgeDestroyed (b : Bridge) (_eventId : String) : Bridge := b

/-! ## Objects at addresses -/

/-- Address of a `Bridge` object. -/
abbrev Addr := Nat

/-- The `Bridge` objects alive at each address. -/
abbrev Heap := Addr → Option Bridge

/-- Writes the object at one address. -/
def Heap.store (h : Heap) (a : Addr) (b : Bridge) : Heap :=
  fun x => if x = a then some b else h x

/-- Move construction `Bridge dst(std::move(src))`: a new object at the free address
`dst` from the live object at `src`.  Gives the heap afterwards and the requests
sent; `none` when `src` is not a live object or `dst` is not free. -/
def Heap.moveConstruct (h : Heap) (dst src : Addr) : Option (Heap × List RawCmd) :=
  match h dst, h src with
  | Option.none, some rhs =>
      let p := Bridge.moveCtor rhs
      some ((h.store src p.2).store dst p.1, [])
  | _, _ => Option.none

/-- Move assignment `self = std::move(rhs)` between the objects at two addresses,
with the test `&rhs != this` on the addresses.  Gives the heap afterwards and the
requests sent; `none` when either address holds no live object. -/
def Heap.moveAssign (h : Heap) (self rhs : Addr) : Option (Heap × List RawCmd) :=
  match h self, h rhs with
  | some t, some r =>
      if rhs ≠ self then
        let p := Bridge.moveAssignBody t r
        some ((h.store self p.1).store rhs p.2, [])
      else some (h, [])
  | _, _ => Option.none

/-- A heap with two live handles: `b1` on client 7 at address 0 and `b2` on client 8 at
address 1; every other address is free. -/
def Heap.sample : Heap :=
  fun a => if a = 0 then some ⟨"b1", 7⟩ else if a = 1 then some ⟨"b2", 8⟩ else Option.none

/-! ## Creation of a new bridge -/

/-- Modelled from the spec: the tree `FromJson(body)` of the missing JSON header gives for
a response body, reduced to what the handle reads: its top-level string fields. -/
abbrev JsonTree := List (String × String)

/-- Modelled from the spec: `Get<std::string>(tree, path)` of the missing JSON header, for
a one-element path: the value of the field, `none` when the field is absent (the call
throws; spec 7, MalformedResponse). -/
def Get (tree : JsonTree) (key : String) : Option String :=
  tree.lookup key

/-- The constructor `Bridge(Client& _client, CreationHandler h)`: `id` is default-initialised
(empty), `client` is set, and the body makes one `client->RawCmd("POST",
"/ari/bridges?type=mixing", callback)` call.  Gives the new handle and the requests sent. -/
def Bridge.create (_client : ClientRef) : Bridge × List RawCmd :=
  (⟨"", _client⟩, [⟨_client, "POST", "/ari/bridges?type=mixing"⟩])

/-- What one run of the creation callback does: the handle afterwards, and the handle as it
is at each invocation of the creation handler `h`, in order. -/
structure Completed where
  self : Bridge
  handlerSaw : List Bridge
deriving DecidableEq

/-- The callback the creating constructor registers, run on the handle `b` when the
completion delivers `body`: `id = Get<std::string>(tree, {"id"}); h();`.  Gives `none` when
`Get` throws: then neither the assignment nor `h()` is reached. -/
def Bridge.onCreated (b : Bridge) (body : JsonTree) : Option Completed :=
  match Get body "id" with
  | Option.none => Option.none
  | some v =>
      let b1 : Bridge := ⟨v, b.client⟩
      some ⟨b1, [b1]⟩

/-- A step on one handle: a call of one of its operations, or the arrival of the
completion of its own creation command with a body. -/
inductive Step where
  | call (op : Op)
  | created (body : JsonTree)

/-- The handle after one step; a completion whose callback throws leaves it as it was. -/
def Bridge.step (b : Bridge) : Step → Bridge
  | Step.call op => (b.invoke op).self
  | Step.created body =>
      match b.onCreated body with
      | some c => c.self
      | Option.none => b

/-- The handle after a sequence of steps, in order. -/
def Bridge.run (b : Bridge) (steps : List Step) : Bridge :=
  steps.foldl Bridge.step b

/-! ## Identifiers held by the handles of a heap -/

/-- Some live handle of the heap holds the identifier `i`. -/
def Heap.holds (h : Heap) (i : String) : Prop :=
  ∃ a b, h a = some b ∧ b.id = i

/-! ## Wording of the specification -/

/-- The decimal numeral of a non-negative integer: what the operation table means by the
value of an integer parameter. -/
def decimal (n : Int) : String := Nat.repr n.toNat

/-- The method the canonical operation table (spec 6) lists for an operation: `DELETE`
for StopMusicOnHold and Destroy, `POST` for every other one. -/
def Op.tableMethod : Op → String
  | Op.StopMoh => "DELETE"
  | Op.Destroy => "DELETE"
  | _ => "POST"

/-- A string has no `&` character. -/
def noAmp (s : String) : Prop := '&' ∉ s.data

instance noAmp.decidable (s : String) : Decidable (noAmp s) :=
  inferInstanceAs (Decidable ('&' ∉ s.data))

/-- Two integer arguments are both negative, or equal. -/
def sameInt (a b : Int) : Prop := (a < 0 ∧ b < 0) ∨ a = b

/-- A character list is empty, or starts with `&` followed by one of the characters `cs`:
the shape of a run of optional query parameters whose names start with one of `cs`. -/
def startsIn (cs : List Char) (t : List Char) : Prop :=
  t = [] ∨ ∃ c r, t = '&' :: c :: r ∧ c ∈ cs

/-! ## Basic facts -/

theorem empty_eq_true_iff (s : String) : empty s = true ↔ s = "" := by
  cases s with
  | mk l =>
    cases l with
    | nil => simp [empty]
    | cons c cs =>
      simp only [empty, List.isEmpty_cons, Bool.false_eq_true, false_iff]
      intro h
      have h2 := congrArg String.data h
      exact List.cons_ne_nil c cs h2

theorem empty_eq_false_iff (s : String) : empty s = false ↔ s ≠ "" := by
  rw [Ne, ← empty_eq_true_iff]; simp

theorem Destroy_of_dead (b : Bridge) (h : b.IsDead = true) :
    b.Destroy = ⟨b, Proxy.Empty, []⟩ := by
  simp [Bridge.Destroy, h, Outcome.of, Proxy.CreateEmpty]

theorem Destroy_of_alive (b : Bridge) (h : b.IsDead = false) :
    b.Destroy = ⟨⟨"", b.client⟩, Proxy.Pending ⟨b.client, "DELETE", "/ari/bridges/"⟩,
      [⟨b.client, "DELETE", "/ari/bridges/"⟩]⟩ := by
  simp [Bridge.Destroy, h, Outcome.of, Proxy.Command, clear]

theorem fire_eq_Destroy (b : Bridge) (t : Trigger) : b.fire t = b.Destroy := by
  cases t <;> rfl

theorem trace_of_dead (b : Bridge) (h : b.IsDead = true) (ts : List Trigger) :
    ∀ o ∈ b.trace ts, o = ⟨b, Proxy.Empty, []⟩ := by
  induction ts with
  | nil => intro o ho; simp [Bridge.trace] at ho
  | cons t ts ih =>
    intro o ho
    have hf : b.fire t = ⟨b, Proxy.Empty, []⟩ := by
      rw [fire_eq_Destroy, Destroy_of_dead b h]
    simp only [Bridge.trace, hf, List.mem_cons] at ho
    rcases ho with ho | ho
    · exact ho
    · exact ih o ho

theorem sentBy_of_dead (b : Bridge) (h : b.IsDead = true) (ts : List Trigger) :
    sentBy (b.trace ts) = [] := by
  induction ts with
  | nil => rfl
  | cons t ts ih =>
    have hf : b.fire t = ⟨b, Proxy.Empty, []⟩ := by
      rw [fire_eq_Destroy, Destroy_of_dead b h]
    simp [Bridge.trace, sentBy, hf, ih]

/-! ## C1: the path of the deletion -/

/-- C1, the code at a handle holding the id `b1`: `Destroy()` sends one `DELETE` whose
path is `/ari/bridges/` with nothing after it, not `/ari/bridges/b1`; the id was cleared
before the path was built. -/
theorem C1_Destroy_path_has_no_id :
    (Bridge.Destroy ⟨"b1", 7⟩).sent = [⟨7, "DELETE", "/ari/bridges/"⟩] ∧
    (Bridge.Destroy ⟨"b1", 7⟩).sent ≠ [⟨7, "DELETE", "/ari/bridges/" ++ "b1"⟩] := by
  decide

/-! ## C2: operations on a dead handle -/

/-- C2 as stated fails: `StopMoh()` on a dead handle (empty id) sends a request, so it
is not true that it returns the empty result and sends nothing. -/
theorem C2_dead_StopMoh_sends :
    (Bridge.mk "" 7).IsDead = true ∧
    (Bridge.invoke ⟨"", 7⟩ Op.StopMoh).result ≠ Proxy.CreateEmpty.1 ∧
    (Bridge.invoke ⟨"", 7⟩ Op.StopMoh).sent = [⟨7, "DELETE", "/ari/bridges//moh"⟩] := by
  decide

/-- C2 amended: on a dead handle `Destroy()` returns the canonical empty result and sends
nothing, while every other operation (both `Add`s, `Remove`, `StartMoh`, `StopMoh`, `Play`,
`Record`), for every choice of arguments, sends exactly one request on the handle's client
and returns the pending result of that request. -/
theorem C2_dead_handle (b : Bridge) (op : Op) (h : b.IsDead = true) :
    (op = Op.Destroy →
      (b.invoke op).result = Proxy.CreateEmpty.1 ∧ (b.invoke op).sent = []) ∧
    (op ≠ Op.Destroy →
      ∃ c : RawCmd, (b.invoke op).sent = [c] ∧ (b.invoke op).result = Proxy.Pending c ∧
        c.client = b.client) := by
  constructor
  · intro hop
    subst hop
    simp [Bridge.invoke, Destroy_of_dead b h, Proxy.CreateEmpty]
  · intro hop
    cases op <;>
      first
      | exact absurd rfl hop
      | exact ⟨_, rfl, rfl, rfl⟩

/-- C2 amended, at the dead handle on client 7: `Destroy()` returns the empty result and
sends nothing. -/
theorem C2_dead_handle_witness :
    (Bridge.invoke ⟨"", 7⟩ Op.Destroy).result = Proxy.CreateEmpty.1 ∧
    (Bridge.invoke ⟨"", 7⟩ Op.Destroy).sent = [] :=
  (C2_dead_handle ⟨"", 7⟩ Op.Destroy (by decide)).1 rfl

/-! ## C3: local destroy triggers -/

/-- C3: on a handle with a non-empty id, for every sequence of local destroy triggers
`t :: ts` (explicit `Destroy()` calls and the destructor), the first trigger sends exactly
one request, a `DELETE` on the handle's client, and leaves the handle dead; every later
trigger returns the empty result, sends nothing and leaves the state unchanged; so the
requests sent in total are that one `DELETE`. -/
theorem C3_local_destroy_once (b : Bridge) (t : Trigger) (ts : List Trigger)
    (h : b.id ≠ "") :
    (∃ c : RawCmd, (b.fire t).sent = [c] ∧ c.method = "DELETE" ∧ c.client = b.client ∧
      sentBy (b.trace (t :: ts)) = [c]) ∧
    (b.fire t).self.IsDead = true ∧
    (∀ o ∈ (b.fire t).self.trace ts,
      o.result = Proxy.CreateEmpty.1 ∧ o.sent = [] ∧ o.self = (b.fire t).self) := by
  have ha : b.IsDead = false := (empty_eq_false_iff b.id).2 h
  have hf : b.fire t = ⟨⟨"", b.client⟩, Proxy.Pending ⟨b.client, "DELETE", "/ari/bridges/"⟩,
      [⟨b.client, "DELETE", "/ari/bridges/"⟩]⟩ := by
    rw [fire_eq_Destroy, Destroy_of_alive b ha]
  have hd : (Bridge.mk "" b.client).IsDead = true := rfl
  refine ⟨⟨⟨b.client, "DELETE", "/ari/bridges/"⟩, ?_, rfl, rfl, ?_⟩, ?_, ?_⟩
  · rw [hf]
  · simp only [Bridge.trace, sentBy, hf]
    rw [sentBy_of_dead _ hd ts]
    rfl
  · rw [hf]; rfl
  · intro o ho
    rw [hf] at ho ⊢
    have := trace_of_dead _ hd ts o ho
    subst this
    exact ⟨rfl, rfl, rfl⟩

/-- C3 at the handle `b1` on client 7 with the triggers `Destroy()`, `Destroy()`, destructor:
one `DELETE` is sent in total. -/
theorem C3_local_destroy_once_witness :
    sentBy ((Bridge.mk "b1" 7).trace
      [Trigger.explicitDestroy, Trigger.explicitDestroy, Trigger.discard]) =
      [⟨7, "DELETE", "/ari/bridges/"⟩] := by
  obtain ⟨⟨c, h1, _, _, h2⟩, _, _⟩ := C3_local_destroy_once ⟨"b1", 7⟩ Trigger.explicitDestroy
    [Trigger.explicitDestroy, Trigger.discard] (by decide)
  have hc : c = ⟨7, "DELETE", "/ari/bridges/"⟩ := by
    have : (Bridge.fire ⟨"b1", 7⟩ Trigger.explicitDestroy).sent =
        [⟨7, "DELETE", "/ari/bridges/"⟩] := by decide
    rw [this] at h1
    simpa using h1.symm
  rw [h2, hc]

/-! ## C4: the destructor after a remote destroy event -/

/-- C4, the code at a handle holding the id `b1`: after the remote `BridgeDestroyed` event
for `b1` the handle is still alive, and discarding it then sends one `DELETE`. -/
theorem C4_dtor_after_remote_event_sends_DELETE :
    ((Bridge.mk "b1" 7).onBridgeDestroyed "b1").IsDead = false ∧
    (((Bridge.mk "b1" 7).onBridgeDestroyed "b1").fire Trigger.discard).sent =
      [⟨7, "DELETE", "/ari/bridges/"⟩] := by
  decide

/-! ## C5: the path of `Play` -/

theorem to_string_of_nonneg (n : Int) (h : ¬ n < 0) : to_string n = decimal n := by
  have h0 : 0 ≤ n := not_lt.mp h
  obtain ⟨k, rfl⟩ := Int.eq_ofNat_of_zero_le h0
  simp [to_string, decimal]

theorem opt_string (s t : String) :
    (if empty s then "" else t) = (if s ≠ "" then t else "") := by
  by_cases hs : s = ""
  · subst hs
    have e : empty "" = true := rfl
    simp [e]
  · simp [hs, (empty_eq_false_iff s).2 hs]

theorem opt_int (n : Int) (t : String) :
    (if n < 0 then "" else t ++ to_string n) = (if 0 ≤ n then t ++ decimal n else "") := by
  by_cases hn : n < 0
  · simp [hn, not_le.mpr hn]
  · simp [hn, not_lt.mp hn, to_string_of_nonneg n hn]

/-- C5: for every handle and all arguments, `Play` sends exactly one request, a `POST` on
the handle's client, whose path is `/ari/bridges/` ++ id ++ `/play?media=` ++ media followed,
in this order, by `&lang=` ++ lang iff lang is non-empty, `&playbackId=` ++ playbackId iff
playbackId is non-empty, `&offsetms=` ++ decimal offsetms iff offsetms >= 0 and `&skipms=` ++
decimal skipms iff skipms >= 0, and nothing else.  With everything but media at its default
the query is `media=x`; with offsetms 50 it is `media=x&offsetms=50`. -/
theorem C5_Play_path (b : Bridge) (media lang playbackId : String) (offsetms skipms : Int) :
    (b.Play media lang playbackId offsetms skipms).sent =
      [⟨b.client, "POST",
        "/ari/bridges/" ++ b.id ++ "/play?media=" ++ media ++
          (if lang ≠ "" then "&lang=" ++ lang else "") ++
          (if playbackId ≠ "" then "&playbackId=" ++ playbackId else "") ++
          (if 0 ≤ offsetms then "&offsetms=" ++ decimal offsetms else "") ++
          (if 0 ≤ skipms then "&skipms=" ++ decimal skipms else "")⟩] ∧
    (b.Play "x" "" "" (-1) (-1)).sent =
      [⟨b.client, "POST", "/ari/bridges/" ++ b.id ++ "/play?" ++ "media=x"⟩] ∧
    (b.Play "x" "" "" 50 (-1)).sent =
      [⟨b.client, "POST", "/ari/bridges/" ++ b.id ++ "/play?" ++ "media=x&offsetms=50"⟩] := by
  have hlit : ("/play?" : String) ++ "media=" = "/play?media=" := by decide
  refine ⟨?_, ?_, ?_⟩
  · simp only [Bridge.Play, Outcome.of, Proxy.Command, opt_string, opt_int, ← hlit,
      String.append_assoc]
  · have h1 : ("media=" : String) ++ "x" = "media=x" := by decide
    have e : empty "" = true := rfl
    have n1 : ((-1 : Int) < 0) := by decide
    simp only [Bridge.Play, Outcome.of, Proxy.Command, e, n1, if_true, String.append_empty,
      ← h1, String.append_assoc]
  · have h1 : ("media=" : String) ++ "x" ++ ("&offsetms=" ++ to_string 50) =
        "media=x&offsetms=50" := by decide
    have e : empty "" = true := rfl
    have n1 : ((-1 : Int) < 0) := by decide
    have n2 : ¬ ((50 : Int) < 0) := by decide
    simp only [Bridge.Play, Outcome.of, Proxy.Command, e, n1, n2, if_true, if_false,
      String.append_empty, ← h1, String.append_assoc]

/-! ## C6: the query of `Record` -/

/-- C6 as stated fails: `Record("n", "wav")` with every other parameter at its default
sends a query that also carries `terminateOn` and `beep`, not only `name` and `format`. -/
theorem C6_Record_defaults_carry_terminateOn_and_beep :
    (Bridge.Record ⟨"b1", 7⟩ "n" "wav" (-1) (-1) "" false TerminationDtmf.none).sent =
      [⟨7, "POST", "/ari/bridges/b1/record?name=n&format=wav&terminateOn=none&beep=false"⟩] ∧
    (Bridge.Record ⟨"b1", 7⟩ "n" "wav" (-1) (-1) "" false TerminationDtmf.none).sent ≠
      [⟨7, "POST", "/ari/bridges/b1/record?name=n&format=wav"⟩] := by
  decide

/-- C6 amended: for every handle and all arguments, `Record` sends exactly one `POST` whose
query always carries `name`, `format`, `terminateOn` (the wire string of the value passed)
and `beep` (`true` or `false`), in this order, followed by `ifExists` iff it is non-empty,
`maxDurationSeconds` iff it is >= 0 and `maxSilenceSeconds` iff it is >= 0, and nothing
else.  With every optional parameter at its default the query is
`name=..&format=..&terminateOn=..&beep=false`. -/
theorem C6_Record_path (b : Bridge) (name format : String)
    (maxDurationSeconds maxSilenceSeconds : Int) (ifExists : String) (beep : Bool)
    (terminateOn : TerminationDtmf) :
    (b.Record name format maxDurationSeconds maxSilenceSeconds ifExists beep terminateOn).sent =
      [⟨b.client, "POST",
        "/ari/bridges/" ++ b.id ++ "/record?name=" ++ name ++ "&format=" ++ format ++
          "&terminateOn=" ++ terminateOn.value ++
          "&beep=" ++ (if beep = true then "true" else "false") ++
          (if ifExists ≠ "" then "&ifExists=" ++ ifExists else "") ++
          (if 0 ≤ maxDurationSeconds
            then "&maxDurationSeconds=" ++ decimal maxDurationSeconds else "") ++
          (if 0 ≤ maxSilenceSeconds
            then "&maxSilenceSeconds=" ++ decimal maxSilenceSeconds else "")⟩] ∧
    (b.Record name format (-1) (-1) "" false terminateOn).sent =
      [⟨b.client, "POST",
        "/ari/bridges/" ++ b.id ++ "/record?name=" ++ name ++ "&format=" ++ format ++
          "&terminateOn=" ++ terminateOn.value ++ "&beep=false"⟩] := by
  have hlit : ("/record?" : String) ++ "name=" = "/record?name=" := by decide
  have hb : (if beep = true then "&beep=true" else "&beep=false") =
      "&beep=" ++ (if beep = true then "true" else "false") := by
    cases beep <;> decide
  constructor
  · simp only [Bridge.Record, Outcome.of, Proxy.Command, opt_string, opt_int, ← hlit, hb,
      TerminationDtmf.toStdString, String.append_assoc]
  · have e : empty "" = true := rfl
    have n1 : ((-1 : Int) < 0) := by decide
    simp [Bridge.Record, Outcome.of, Proxy.Command, e, n1, ← hlit,
      TerminationDtmf.toStdString, String.append_assoc]

/-! ## C7: the default role of `Add` -/

/-- C7, the code at a handle holding the id `b1` and the channel `c1`: `Add(ch)` without
an explicit role sends `role=partecipant`, and the constant `Role::partecipant` converts
to the wire string `partecipant`, not `participant`. -/
theorem C7_default_role_wire_string :
    (Bridge.AddDefault ⟨"b1", 7⟩ ⟨"c1"⟩).sent =
      [⟨7, "POST", "/ari/bridges/b1/addChannel?channel=c1&role=partecipant"⟩] ∧
    Role.announce.toStdString = "announce" ∧
    Role.partecipant.toStdString = "partecipant" ∧
    Role.partecipant.toStdString ≠ "participant" := by
  decide

/-! ## C8: the path of `StartMoh` -/

/-- C8, the code at a handle holding the id `b1`: `StartMoh("jazz")` sends the path
`/ari/bridges/b1/moh?mohClassjazz`, with no `=` between the parameter name and its value,
not `/ari/bridges/b1/moh?mohClass=jazz`; with an empty class the path is
`/ari/bridges/b1/moh`. -/
theorem C8_StartMoh_query_lacks_equals_sign :
    (Bridge.StartMoh ⟨"b1", 7⟩ "jazz").sent =
      [⟨7, "POST", "/ari/bridges/b1/moh?mohClassjazz"⟩] ∧
    (Bridge.StartMoh ⟨"b1", 7⟩ "jazz").sent ≠
      [⟨7, "POST", "/ari/bridges/b1/moh?mohClass=jazz"⟩] ∧
    (Bridge.StartMoh ⟨"b1", 7⟩ "").sent = [⟨7, "POST", "/ari/bridges/b1/moh"⟩] := by
  decide

/-! ## C9: the path of `Add(list)` -/

theorem pop_back_append_comma (acc : String) : pop_back (acc ++ ",") = acc := by
  cases acc with
  | mk l =>
    show (⟨(l ++ [',']).dropLast⟩ : String) = ⟨l⟩
    simp

theorem pop_back_AddLoop (cs : List Channel) :
    ∀ acc : String, pop_back (Bridge.AddLoop (acc ++ ",") cs) =
      String.intercalate.go acc "," (cs.map Channel.Id) := by
  induction cs with
  | nil =>
    intro acc
    simp only [Bridge.AddLoop, List.foldl_nil, List.map_nil, String.intercalate.go]
    exact pop_back_append_comma acc
  | cons c cs ih =>
    intro acc
    have h := ih (acc ++ "," ++ c.Id)
    simp only [Bridge.AddLoop, List.foldl_cons, List.map_cons, String.intercalate.go] at h ⊢
    rw [← h, String.append_assoc (acc ++ ",")]

theorem intercalate_go_append (s : String) (as : List String) :
    ∀ base acc : String, String.intercalate.go (base ++ acc) s as =
      base ++ String.intercalate.go acc s as := by
  induction as with
  | nil => intro base acc; simp [String.intercalate.go]
  | cons a as ih =>
    intro base acc
    simp only [String.intercalate.go]
    rw [← ih, String.append_assoc, String.append_assoc, String.append_assoc]

/-- C9: for every handle and every non-empty list of channels, `Add(list)` sends exactly
one request, a `POST` on the handle's client, whose path is `/ari/bridges/` ++ id ++
`/addChannel?channel=` followed by the channel ids in list order joined by single commas,
with no leading or trailing comma. -/
theorem C9_AddList_path (b : Bridge) (chs : List Channel) (h : chs ≠ []) :
    (b.AddList chs).sent =
      [⟨b.client, "POST",
        "/ari/bridges/" ++ b.id ++ "/addChannel?channel=" ++
          String.intercalate "," (chs.map Channel.Id)⟩] := by
  cases chs with
  | nil => exact absurd rfl h
  | cons c cs =>
    have hl : Bridge.AddLoop ("/ari/bridges/" ++ b.id ++ "/addChannel?channel=") (c :: cs) =
        Bridge.AddLoop ("/ari/bridges/" ++ b.id ++ "/addChannel?channel=" ++ c.Id ++ ",") cs := by
      simp only [Bridge.AddLoop, List.foldl_cons, String.append_assoc]
    simp only [Bridge.AddList, Outcome.of, Proxy.Command, hl, pop_back_AddLoop,
      intercalate_go_append, List.map_cons, String.intercalate]

/-- C9 at the handle `b1` and the channels `c1`, `c2`, `c3`: the query is
`channel=c1,c2,c3`. -/
theorem C9_AddList_path_witness :
    (Bridge.AddList ⟨"b1", 7⟩ [⟨"c1"⟩, ⟨"c2"⟩, ⟨"c3"⟩]).sent =
      [⟨7, "POST", "/ari/bridges/b1/addChannel?channel=c1,c2,c3"⟩] := by
  have h := C9_AddList_path ⟨"b1", 7⟩ [⟨"c1"⟩, ⟨"c2"⟩, ⟨"c3"⟩] (by decide)
  rw [h]
  decide

/-! ## C10: moving a handle -/

theorem store_same (h : Heap) (a : Addr) (b : Bridge) : h.store a b a = some b := by
  simp [Heap.store]

theorem store_other (h : Heap) (a x : Addr) (b : Bridge) (hx : x ≠ a) :
    h.store a b x = h x := by
  simp [Heap.store, hx]

/-- C10: with a live source object `r` at address `src`: (1) move-constructing a new object
at a free address `dst` sends nothing, the new object has the id and client `r` had, and the
source keeps its client and has an empty id (it is dead); (2) move-assigning to a live
object at a distinct address `dst` does the same; (3) move-assigning the object to itself
sends nothing and leaves the heap, hence its id and client, unchanged. -/
theorem C10_move_transfers_identity (h : Heap) (dst src : Addr) (r : Bridge)
    (hsrc : h src = some r) (hne : dst ≠ src) :
    (h dst = Option.none →
      ∃ h1 : Heap, h.moveConstruct dst src = some (h1, []) ∧
        h1 dst = some ⟨r.id, r.client⟩ ∧ h1 src = some ⟨"", r.client⟩ ∧
        (Bridge.mk "" r.client).IsDead = true) ∧
    (∀ t : Bridge, h dst = some t →
      ∃ h1 : Heap, h.moveAssign dst src = some (h1, []) ∧
        h1 dst = some ⟨r.id, r.client⟩ ∧ h1 src = some ⟨"", r.client⟩ ∧
        (Bridge.mk "" r.client).IsDead = true) ∧
    h.moveAssign src src = some (h, []) := by
  refine ⟨?_, ?_, ?_⟩
  · intro hd
    refine ⟨(h.store src ⟨"", r.client⟩).store dst ⟨r.id, r.client⟩, ?_, ?_, ?_, rfl⟩
    · simp only [Heap.moveConstruct, hd, hsrc, Bridge.moveCtor, clear]
    · simp [Heap.store, Bridge.moveCtor]
    · simp [Heap.store, Bridge.moveCtor, Ne.symm hne, clear]
  · intro t hd
    refine ⟨(h.store dst ⟨r.id, r.client⟩).store src ⟨"", r.client⟩, ?_, ?_, ?_, rfl⟩
    · simp only [Heap.moveAssign, hd, hsrc, Ne.symm hne, ne_eq, not_false_eq_true, if_true,
        Bridge.moveAssignBody, clear]
    · simp [Heap.store, Bridge.moveAssignBody, hne]
    · simp [Heap.store, Bridge.moveAssignBody, clear]
  · simp [Heap.moveAssign, hsrc]

/-- C10 on the sample heap: move construction at the free address 2 from address 0, move
assignment to address 1 from address 0, and self-assignment at address 0. -/
theorem C10_move_transfers_identity_witness :
    (∃ h1 : Heap, Heap.sample.moveConstruct 2 0 = some (h1, []) ∧
      h1 2 = some ⟨"b1", 7⟩ ∧ h1 0 = some ⟨"", 7⟩ ∧ (Bridge.mk "" 7).IsDead = true) ∧
    (∃ h1 : Heap, Heap.sample.moveAssign 1 0 = some (h1, []) ∧
      h1 1 = some ⟨"b1", 7⟩ ∧ h1 0 = some ⟨"", 7⟩ ∧ (Bridge.mk "" 7).IsDead = true) ∧
    Heap.sample.moveAssign 0 0 = some (Heap.sample, []) :=
  ⟨(C10_move_transfers_identity Heap.sample 2 0 ⟨"b1", 7⟩ rfl (by decide)).1 rfl,
   (C10_move_transfers_identity Heap.sample 1 0 ⟨"b1", 7⟩ rfl (by decide)).2.1 ⟨"b2", 8⟩ rfl,
   (C10_move_transfers_identity Heap.sample 1 0 ⟨"b1", 7⟩ rfl (by decide)).2.2⟩

/-! ## C11: the creation round-trip -/

/-- C11, the code on client 7 with a completion whose body has the identifier field `b1`:
the constructor sends exactly `POST /ari/bridges?type=mixing`, the callback sets the id to
`b1` and then invokes the handler once, on the handle already holding `b1`; but the
`Destroy()` that follows sends `DELETE /ari/bridges/`, not `DELETE /ari/bridges/b1`. -/
theorem C11_Destroy_after_creation_has_no_id :
    (Bridge.create 7).2 = [⟨7, "POST", "/ari/bridges?type=mixing"⟩] ∧
    (Bridge.create 7).1.onCreated [("id", "b1")] = some ⟨⟨"b1", 7⟩, [⟨"b1", 7⟩]⟩ ∧
    (((Bridge.create 7).1.step (Step.created [("id", "b1")])).Destroy).sent =
      [⟨7, "DELETE", "/ari/bridges/"⟩] ∧
    (((Bridge.create 7).1.step (Step.created [("id", "b1")])).Destroy).sent ≠
      [⟨7, "DELETE", "/ari/bridges/" ++ "b1"⟩] := by
  decide

/-! ## C12: dead handles and later steps -/

theorem invoke_self_of_ne_Destroy (b : Bridge) (op : Op) (h : op ≠ Op.Destroy) :
    (b.invoke op).self = b := by
  cases op <;> first | exact absurd rfl h | rfl

theorem invoke_keeps_dead (b : Bridge) (op : Op) (h : b.IsDead = true) :
    (b.invoke op).self = b := by
  by_cases hop : op = Op.Destroy
  · subst hop
    simp [Bridge.invoke, Destroy_of_dead b h]
  · exact invoke_self_of_ne_Destroy b op hop

theorem run_calls_of_dead (ops : List Op) :
    ∀ b : Bridge, b.IsDead = true → b.run (ops.map Step.call) = b := by
  induction ops with
  | nil => intro b _; rfl
  | cons op ops ih =>
    intro b h
    simp only [Bridge.run, List.map_cons, List.foldl_cons, Bridge.step]
    rw [invoke_keeps_dead b op h]
    exact ih b h

theorem Destroy_self_dead (b : Bridge) : (b.Destroy).self.IsDead = true := by
  cases hb : b.IsDead
  · rw [Destroy_of_alive b hb]; rfl
  · rw [Destroy_of_dead b hb]; exact hb

/-- C12 as stated fails: on a handle made by the creating constructor, `Destroy()` is called
(the handle is dead, before and after), then the completion of its creation command
arrives with the identifier `b1`: the handle holds `b1` and is alive again. -/
theorem C12_completion_after_Destroy_revives :
    ((Bridge.create 7).1.Destroy).self.IsDead = true ∧
    (((Bridge.create 7).1.Destroy).self.run [Step.created [("id", "b1")]]) = ⟨"b1", 7⟩ ∧
    (((Bridge.create 7).1.Destroy).self.run [Step.created [("id", "b1")]]).IsDead = false := by
  decide

/-- C12 amended: once `Destroy()` has been called on a handle, `IsDead()` is true after
every later sequence of operation calls (`Add`, `Add(list)`, `Remove`, `StartMoh`, `StopMoh`,
`Play`, `Record`, `Destroy`).  The completion of the creation command is not such a step:
it writes the delivered identifier `v` into `id` whatever the state, so after it the handle
is dead iff `v` is empty. -/
theorem C12_dead_under_calls (b : Bridge) (ops : List Op) (v : String) (rest : JsonTree) :
    ((b.Destroy).self.run (ops.map Step.call)).IsDead = true ∧
    (b.step (Step.created (("id", v) :: rest))).IsDead = empty v := by
  constructor
  · rw [run_calls_of_dead ops _ (Destroy_self_dead b)]
    exact Destroy_self_dead b
  · simp [Bridge.step, Bridge.onCreated, Get, List.lookup, Bridge.IsDead]

/-! ## C13: the operation table on an alive handle -/

theorem AddList_sent_cons (b : Bridge) (c : Channel) (cs : List Channel) :
    (b.AddList (c :: cs)).sent =
      [⟨b.client, "POST",
        "/ari/bridges/" ++ b.id ++ "/addChannel?channel=" ++
          String.intercalate "," ((c :: cs).map Channel.Id)⟩] := by
  have hl : Bridge.AddLoop ("/ari/bridges/" ++ b.id ++ "/addChannel?channel=") (c :: cs) =
      Bridge.AddLoop ("/ari/bridges/" ++ b.id ++ "/addChannel?channel=" ++ c.Id ++ ",") cs := by
    simp only [Bridge.AddLoop, List.foldl_cons, String.append_assoc]
  simp only [Bridge.AddList, Outcome.of, Proxy.Command, hl, pop_back_AddLoop,
    intercalate_go_append, List.map_cons, String.intercalate]

/-- C13: for every handle id (in particular every non-empty one) and every operation other
than `Destroy` and other than `Add(list)` with the empty list, with any arguments, the call
sends exactly one request, on the handle's client, with the method of the operation table
(`POST`, for `StopMoh` `DELETE`) and a path that begins with `/ari/bridges/` ++ id ++ `/`;
`Remove(ch)` sends `POST /ari/bridges/` ++ id ++ `/removeChannel?channel=` ++ ch.id and
`StopMoh()` sends `DELETE /ari/bridges/` ++ id ++ `/moh`. -/
theorem C13_operation_table (b : Bridge) (op : Op) (hop : op ≠ Op.Destroy)
    (hl : op ≠ Op.AddList []) :
    (∃ rest : String, (b.invoke op).sent =
      [⟨b.client, op.tableMethod, "/ari/bridges/" ++ b.id ++ "/" ++ rest⟩]) ∧
    (∀ ch : Channel, (b.Remove ch).sent =
      [⟨b.client, "POST", "/ari/bridges/" ++ b.id ++ "/removeChannel?channel=" ++ ch.id⟩]) ∧
    (b.StopMoh).sent = [⟨b.client, "DELETE", "/ari/bridges/" ++ b.id ++ "/moh"⟩] := by
  have l1 : ("/addChannel?channel=" : String) = "/" ++ "addChannel?channel=" := by decide
  have l2 : ("/removeChannel?channel=" : String) = "/" ++ "removeChannel?channel=" := by decide
  have l3 : ("/moh" : String) = "/" ++ "moh" := by decide
  have l4 : ("/play?" : String) = "/" ++ "play?" := by decide
  have l5 : ("/record?" : String) = "/" ++ "record?" := by decide
  refine ⟨?_, fun ch => rfl, rfl⟩
  cases op with
  | Add ch role =>
    refine ⟨"addChannel?channel=" ++ ch.Id ++ "&role=" ++ role.toStdString, ?_⟩
    simp only [Bridge.invoke, Bridge.Add, Outcome.of, Proxy.Command, Op.tableMethod, l1,
      String.append_assoc]
  | AddList chs =>
    cases chs with
    | nil => exact absurd rfl hl
    | cons c cs =>
      refine ⟨"addChannel?channel=" ++ String.intercalate "," ((c :: cs).map Channel.Id), ?_⟩
      simp only [Bridge.invoke, AddList_sent_cons, Op.tableMethod, l1, String.append_assoc]
  | Remove ch =>
    refine ⟨"removeChannel?channel=" ++ ch.Id, ?_⟩
    simp only [Bridge.invoke, Bridge.Remove, Outcome.of, Proxy.Command, Op.tableMethod, l2,
      String.append_assoc]
  | StartMoh mohClass =>
    refine ⟨if !empty mohClass then "moh" ++ ("?mohClass" ++ mohClass) else "moh", ?_⟩
    simp only [Bridge.invoke, Bridge.StartMoh, Outcome.of, Proxy.Command, Op.tableMethod, l3]
    split <;> simp only [String.append_assoc]
  | StopMoh =>
    refine ⟨"moh", ?_⟩
    simp only [Bridge.invoke, Bridge.StopMoh, Outcome.of, Proxy.Command, Op.tableMethod, l3,
      String.append_assoc]
  | Play media lang playbackId offsetms skipms =>
    refine ⟨"play?" ++ "media=" ++ media ++
      (if empty lang then "" else "&lang=" ++ lang) ++
      (if empty playbackId then "" else "&playbackId=" ++ playbackId) ++
      (if offsetms < 0 then "" else "&offsetms=" ++ to_string offsetms) ++
      (if skipms < 0 then "" else "&skipms=" ++ to_string skipms), ?_⟩
    simp only [Bridge.invoke, Bridge.Play, Outcome.of, Proxy.Command, Op.tableMethod, l4,
      String.append_assoc]
  | Record name format maxDurationSeconds maxSilenceSeconds ifExists beep terminateOn =>
    refine ⟨"record?" ++ "name=" ++ name ++ "&format=" ++ format ++
      "&terminateOn=" ++ terminateOn.toStdString ++
      (if beep then "&beep=true" else "&beep=false") ++
      (if empty ifExists then "" else "&ifExists=" ++ ifExists) ++
      (if maxDurationSeconds < 0 then ""
        else "&maxDurationSeconds=" ++ to_string maxDurationSeconds) ++
      (if maxSilenceSeconds < 0 then ""
        else "&maxSilenceSeconds=" ++ to_string maxSilenceSeconds), ?_⟩
    simp only [Bridge.invoke, Bridge.Record, Outcome.of, Proxy.Command, Op.tableMethod, l5,
      String.append_assoc]
  | Destroy => exact absurd rfl hop

/-- C13 at the handle `b1` on client 7 and `Add(list)` with the channels `c1`, `c2`: one
`POST` whose path begins with `/ari/bridges/b1/`. -/
theorem C13_operation_table_witness :
    ∃ rest : String, (Bridge.invoke ⟨"b1", 7⟩ (Op.AddList [⟨"c1"⟩, ⟨"c2"⟩])).sent =
      [⟨7, "POST", "/ari/bridges/" ++ "b1" ++ "/" ++ rest⟩] :=
  (C13_operation_table ⟨"b1", 7⟩ (Op.AddList [⟨"c1"⟩, ⟨"c2"⟩]) (by decide) (by decide)).1

/-! ## C14: the character `pop_back` removes in `Add(list)` -/

/-- C14, the code at a handle holding the id `b1` and the empty list: the string `pop_back`
is applied to ends in `=`, not in `,`, so the character removed is the `=` and the path
sent is `/ari/bridges/b1/addChannel?channel`, which does not start with
`/ari/bridges/b1/addChannel?channel=`. -/
theorem C14_AddList_empty_removes_equals_sign :
    (Bridge.AddLoop ("/ari/bridges/" ++ "b1" ++ "/addChannel?channel=") []).data.getLast? =
      some '=' ∧
    (Bridge.AddList ⟨"b1", 7⟩ []).sent =
      [⟨7, "POST", "/ari/bridges/b1/addChannel?channel"⟩] ∧
    ¬ ("/ari/bridges/b1/addChannel?channel=".data <+:
        "/ari/bridges/b1/addChannel?channel".data) := by
  refine ⟨by decide, by decide, ?_⟩
  intro h
  have := h.length_le
  revert this
  decide

/-! ## C15: identifiers dropped by a step -/

/-- C15, the code on the heap holding `b1` at address 0 and `b2` at address 1: the move
assignment of the handle at 0 to the alive handle at 1 sends nothing, and afterwards no
handle holds `b2`, which the handle at address 1 held before. -/
theorem C15_moveAssign_drops_id_without_DELETE :
    Heap.sample.holds "b2" ∧
    ∃ h1 : Heap, Heap.sample.moveAssign 1 0 = some (h1, []) ∧ ¬ h1.holds "b2" := by
  refine ⟨⟨1, ⟨"b2", 8⟩, rfl, rfl⟩,
    (Heap.sample.store 1 ⟨"b1", 7⟩).store 0 ⟨"", 7⟩, rfl, ?_⟩
  rintro ⟨a, b, hab, hb⟩
  by_cases h0 : a = 0
  · subst h0
    simp [Heap.store] at hab
    subst hab
    revert hb
    decide
  · by_cases h1 : a = 1
    · subst h1
      simp [Heap.store] at hab
      subst hab
      revert hb
      decide
    · simp [Heap.store, Heap.sample, h0, h1] at hab

/-! ## C16: what the operations leave unchanged -/

/-- C16: for every handle and every operation with any arguments, the client reference is
unchanged; `Add`, `Add(list)`, `Remove`, `StartMoh`, `StopMoh`, `Play` and `Record` leave the
id unchanged, and `Destroy` leaves the id empty, whether or not the handle was alive. -/
theorem C16_frame (b : Bridge) (op : Op) :
    (b.invoke op).self.client = b.client ∧
    (b.invoke op).self.id = (if op = Op.Destroy then "" else b.id) := by
  by_cases hop : op = Op.Destroy
  · subst hop
    cases hb : b.IsDead
    · simp [Bridge.invoke, Destroy_of_alive b hb]
    · have hid : b.id = "" := (empty_eq_true_iff b.id).1 hb
      simp [Bridge.invoke, Destroy_of_dead b hb, hid]
  · rw [invoke_self_of_ne_Destroy b op hop]
    simp [hop]

/-! ## C17: is the path of `Play` injective? -/

theorem digitChar_val (k : Nat) (h : k < 10) :
    (Nat.digitChar k).toNat - 48 = k ∧ Nat.digitChar k ≠ '&' := by
  interval_cases k <;> decide

theorem toDigitsCore_decode (fuel : Nat) :
    ∀ (n : Nat) (ds : List Char), n < fuel →
      ∃ pre : List Char, Nat.toDigitsCore 10 fuel n ds = pre ++ ds ∧ '&' ∉ pre ∧
        pre.foldl (fun a c => 10 * a + (c.toNat - 48)) 0 = n := by
  induction fuel with
  | zero => intro n ds h; exact absurd h (Nat.not_lt_zero n)
  | succ fuel ih =>
    intro n ds h
    have hd := digitChar_val (n % 10) (Nat.mod_lt n (by decide))
    by_cases hq : n / 10 = 0
    · refine ⟨[Nat.digitChar (n % 10)], ?_, ?_, ?_⟩
      · simp [Nat.toDigitsCore, hq]
      · simpa using hd.2.symm
      · have hn : n < 10 := by omega
        simp only [List.foldl_cons, List.foldl_nil, Nat.mul_zero, Nat.zero_add, hd.1]
        exact Nat.mod_eq_of_lt hn
    · have hlt : n / 10 < fuel := by omega
      obtain ⟨pre, h1, h2, h3⟩ := ih (n / 10) (Nat.digitChar (n % 10) :: ds) hlt
      refine ⟨pre ++ [Nat.digitChar (n % 10)], ?_, ?_, ?_⟩
      · simp [Nat.toDigitsCore, hq, h1]
      · simp only [List.mem_append, List.mem_singleton, not_or]
        exact ⟨h2, hd.2.symm⟩
      · rw [List.foldl_append, h3]
        simp only [List.foldl_cons, List.foldl_nil, hd.1]
        omega

theorem repr_decode (n : Nat) :
    '&' ∉ (Nat.repr n).data ∧
      (Nat.repr n).data.foldl (fun a c => 10 * a + (c.toNat - 48)) 0 = n := by
  obtain ⟨pre, h1, h2, h3⟩ := toDigitsCore_decode (n + 1) n [] (Nat.lt_succ_self n)
  have : (Nat.repr n).data = pre := by
    simp [Nat.repr, Nat.toDigits, h1, List.asString]
  rw [this]
  exact ⟨h2, h3⟩

theorem to_string_noAmp (n : Int) (h : ¬ n < 0) : '&' ∉ (to_string n).data := by
  simp only [to_string, h, if_false]
  exact (repr_decode n.natAbs).1

theorem to_string_inj (a b : Int) (ha : ¬ a < 0) (hb : ¬ b < 0)
    (h : (to_string a).data = (to_string b).data) : a = b := by
  simp only [to_string, ha, hb, if_false] at h
  have hab : a.natAbs = b.natAbs := by
    rw [← (repr_decode a.natAbs).2, ← (repr_decode b.natAbs).2, h]
  omega

theorem split_at_amp (x1 : List Char) :
    ∀ (x2 t1 t2 : List Char), '&' ∉ x1 → '&' ∉ x2 →
      (∀ c r, t1 = c :: r → c = '&') → (∀ c r, t2 = c :: r → c = '&') →
      x1 ++ t1 = x2 ++ t2 → x1 = x2 ∧ t1 = t2 := by
  induction x1 with
  | nil =>
    intro x2 t1 t2 _ h2 ht1 _ h
    cases x2 with
    | nil => exact ⟨rfl, by simpa using h⟩
    | cons c x2 =>
      have hc := ht1 c (x2 ++ t2) (by simpa using h)
      exact absurd (by simp [hc]) h2
  | cons a x1 ih =>
    intro x2 t1 t2 h1 h2 ht1 ht2 h
    cases x2 with
    | nil =>
      have hc := ht2 a (x1 ++ t1) (by simpa using h.symm)
      exact absurd (by simp [hc]) h1
    | cons c x2 =>
      simp only [List.cons_append, List.cons.injEq] at h
      have h1a : '&' ∉ x1 := fun hm => h1 (List.mem_cons_of_mem a hm)
      have h2a : '&' ∉ x2 := fun hm => h2 (List.mem_cons_of_mem c hm)
      obtain ⟨hx, ht⟩ := ih x2 t1 t2 h1a h2a ht1 ht2 h.2
      exact ⟨by rw [h.1, hx], ht⟩

theorem startsIn_head (cs t : List Char) (h : startsIn cs t) :
    ∀ c r, t = c :: r → c = '&' := by
  intro c r hcr
  rcases h with h | ⟨c1, r1, h, _⟩
  · rw [h] at hcr; cases hcr
  · rw [h] at hcr
    simp only [List.cons.injEq] at hcr
    exact hcr.1.symm

theorem startsIn_nil (cs : List Char) : startsIn cs [] := Or.inl rfl

theorem startsIn_seg (c0 : Char) (cs k r : List Char) (q : Prop) [Decidable q]
    (hr : startsIn cs r) :
    startsIn (c0 :: cs) ((if q then [] else '&' :: c0 :: k) ++ r) := by
  by_cases hq : q
  · simp only [hq, if_true, List.nil_append]
    rcases hr with h | ⟨c, r1, h, hc⟩
    · exact Or.inl h
    · exact Or.inr ⟨c, r1, h, List.mem_cons_of_mem c0 hc⟩
  · simp only [hq, if_false, List.cons_append]
    exact Or.inr ⟨c0, k ++ r, rfl, List.mem_cons_self c0 cs⟩

theorem seg_split (c0 : Char) (cs k v1 v2 r1 r2 : List Char) (q1 q2 : Prop)
    [Decidable q1] [Decidable q2] (hc : c0 ∉ cs) (hv1 : '&' ∉ v1) (hv2 : '&' ∉ v2)
    (hr1 : startsIn cs r1) (hr2 : startsIn cs r2)
    (h : (if q1 then [] else '&' :: c0 :: (k ++ v1)) ++ r1 =
      (if q2 then [] else '&' :: c0 :: (k ++ v2)) ++ r2) :
    (q1 ↔ q2) ∧ (¬ q1 → v1 = v2) ∧ r1 = r2 := by
  by_cases h1 : q1 <;> by_cases h2 : q2
  · simp only [h1, h2, if_true, List.nil_append] at h
    exact ⟨by simp [h1, h2], fun hn => absurd h1 hn, h⟩
  · simp only [h1, h2, if_true, if_false, List.nil_append, List.cons_append] at h
    rcases hr1 with hr | ⟨c, r, hr, hm⟩
    · rw [hr] at h; cases h
    · rw [hr] at h
      simp only [List.cons.injEq, true_and] at h
      exact absurd (h.1 ▸ hm) hc
  · simp only [h1, h2, if_true, if_false, List.nil_append, List.cons_append] at h
    rcases hr2 with hr | ⟨c, r, hr, hm⟩
    · rw [hr] at h; cases h
    · rw [hr] at h
      simp only [List.cons.injEq, true_and] at h
      exact absurd (h.1 ▸ hm) hc
  · simp only [h1, h2, if_false, List.cons_append, List.cons.injEq, true_and,
      List.append_assoc, List.append_cancel_left_eq] at h
    obtain ⟨hv, hr⟩ := split_at_amp v1 v2 r1 r2 hv1 hv2
      (startsIn_head cs r1 hr1) (startsIn_head cs r2 hr2) h
    exact ⟨by simp [h1, h2], fun _ => hv, hr⟩

theorem Play_path_data (b : Bridge) (m l p : String) (o s : Int) :
    ∃ P : String, (b.Play m l p o s).sent = [⟨b.client, "POST", P⟩] ∧
      P.data = ("/ari/bridges/" ++ b.id ++ "/play?" ++ "media=").data ++ (m.data ++
        ((if empty l = true then [] else '&' :: 'l' :: ("ang=".data ++ l.data)) ++
        ((if empty p = true then [] else '&' :: 'p' :: ("laybackId=".data ++ p.data)) ++
        ((if o < 0 then [] else '&' :: 'o' :: ("ffsetms=".data ++ (to_string o).data)) ++
        ((if s < 0 then [] else '&' :: 's' :: ("kipms=".data ++ (to_string s).data)) ++
          []))))) := by
  refine ⟨_, rfl, ?_⟩
  have e0 : ("" : String).data = [] := rfl
  have eL : ("&lang=" : String).data = '&' :: 'l' :: "ang=".data := rfl
  have eP : ("&playbackId=" : String).data = '&' :: 'p' :: "laybackId=".data := rfl
  have eO : ("&offsetms=" : String).data = '&' :: 'o' :: "ffsetms=".data := rfl
  have eS : ("&skipms=" : String).data = '&' :: 's' :: "kipms=".data := rfl
  simp only [String.data_append, apply_ite String.data, e0, eL, eP, eO, eS,
    List.append_assoc, List.cons_append, List.append_nil]

theorem to_string_noAmp_all (n : Int) : '&' ∉ (to_string n).data := by
  by_cases h : n < 0
  · have hr := (repr_decode n.natAbs).1
    simp only [to_string, h, if_true, String.data_append, List.mem_append, not_or]
    exact ⟨by decide, hr⟩
  · exact to_string_noAmp n h

theorem eq_of_data_eq (a b : String) (h : a.data = b.data) : a = b := by
  cases a; cases b; simp_all

theorem opt_string_eq (a b : String) (hq : empty a = true ↔ empty b = true)
    (hv : ¬ empty a = true → a.data = b.data) : a = b := by
  by_cases ha : empty a = true
  · rw [(empty_eq_true_iff a).1 ha, (empty_eq_true_iff b).1 (hq.1 ha)]
  · exact eq_of_data_eq a b (hv ha)

theorem opt_int_same (a b : Int) (hq : a < 0 ↔ b < 0)
    (hv : ¬ a < 0 → (to_string a).data = (to_string b).data) : sameInt a b := by
  by_cases ha : a < 0
  · exact Or.inl ⟨ha, hq.1 ha⟩
  · exact Or.inr (to_string_inj a b ha (fun hb => ha (hq.2 hb)) (hv ha))

/-- C17 as stated fails: with everything else at its default, `Play` with media `x&lang=y`
and `Play` with media `x` and lang `y` send the same path, although the media (and the
lang) arguments differ. -/
theorem C17_Play_paths_collide :
    (Bridge.Play ⟨"b1", 7⟩ "x&lang=y" "" "" (-1) (-1)).sent =
      (Bridge.Play ⟨"b1", 7⟩ "x" "y" "" (-1) (-1)).sent ∧
    ("x&lang=y" : String) ≠ "x" ∧ ("" : String) ≠ "y" := by
  decide

/-- C17 amended: for a fixed handle, when none of the string arguments media, lang and
playbackId of either call contains the character `&`, two `Play` calls that send the same
path have equal media, equal lang, equal playbackId, offsetms both negative or equal, and
skipms both negative or equal. -/
theorem C17_Play_injective_without_amp (b : Bridge) (m1 l1 p1 m2 l2 p2 : String)
    (o1 s1 o2 s2 : Int)
    (hm1 : noAmp m1) (hl1 : noAmp l1) (hp1 : noAmp p1)
    (hm2 : noAmp m2) (hl2 : noAmp l2) (hp2 : noAmp p2)
    (h : (b.Play m1 l1 p1 o1 s1).sent = (b.Play m2 l2 p2 o2 s2).sent) :
    m1 = m2 ∧ l1 = l2 ∧ p1 = p2 ∧ sameInt o1 o2 ∧ sameInt s1 s2 := by
  obtain ⟨P1, e1, d1⟩ := Play_path_data b m1 l1 p1 o1 s1
  obtain ⟨P2, e2, d2⟩ := Play_path_data b m2 l2 p2 o2 s2
  rw [e1, e2] at h
  have hP : P1 = P2 := by simpa using h
  have hd : P1.data = P2.data := by rw [hP]
  rw [d1, d2] at hd
  have hd := List.append_cancel_left hd
  -- the shape of what follows each value
  have S1 := startsIn_seg 's' [] ("kipms=".data ++ (to_string s1).data) [] (s1 < 0)
    (startsIn_nil [])
  have S2 := startsIn_seg 's' [] ("kipms=".data ++ (to_string s2).data) [] (s2 < 0)
    (startsIn_nil [])
  have O1 := startsIn_seg 'o' ['s'] ("ffsetms=".data ++ (to_string o1).data) _ (o1 < 0) S1
  have O2 := startsIn_seg 'o' ['s'] ("ffsetms=".data ++ (to_string o2).data) _ (o2 < 0) S2
  have Q1 := startsIn_seg 'p' ['o', 's'] ("laybackId=".data ++ p1.data) _
    (empty p1 = true) O1
  have Q2 := startsIn_seg 'p' ['o', 's'] ("laybackId=".data ++ p2.data) _
    (empty p2 = true) O2
  have L1 := startsIn_seg 'l' ['p', 'o', 's'] ("ang=".data ++ l1.data) _
    (empty l1 = true) Q1
  have L2 := startsIn_seg 'l' ['p', 'o', 's'] ("ang=".data ++ l2.data) _
    (empty l2 = true) Q2
  obtain ⟨hm, hT⟩ := split_at_amp _ _ _ _ hm1 hm2
    (startsIn_head _ _ L1) (startsIn_head _ _ L2) hd
  obtain ⟨hlq, hlv, hT⟩ := seg_split 'l' ['p', 'o', 's'] "ang=".data l1.data l2.data _ _
    (empty l1 = true) (empty l2 = true) (by decide) hl1 hl2 Q1 Q2 hT
  obtain ⟨hpq, hpv, hT⟩ := seg_split 'p' ['o', 's'] "laybackId=".data p1.data p2.data _ _
    (empty p1 = true) (empty p2 = true) (by decide) hp1 hp2 O1 O2 hT
  obtain ⟨hoq, hov, hT⟩ := seg_split 'o' ['s'] "ffsetms=".data (to_string o1).data
    (to_string o2).data _ _ (o1 < 0) (o2 < 0) (by decide)
    (to_string_noAmp_all o1) (to_string_noAmp_all o2) S1 S2 hT
  obtain ⟨hsq, hsv, _⟩ := seg_split 's' [] "kipms=".data (to_string s1).data
    (to_string s2).data [] [] (s1 < 0) (s2 < 0) (by decide)
    (to_string_noAmp_all s1) (to_string_noAmp_all s2) (startsIn_nil []) (startsIn_nil []) hT
  exact ⟨eq_of_data_eq m1 m2 hm, opt_string_eq l1 l2 hlq hlv, opt_string_eq p1 p2 hpq hpv,
    opt_int_same o1 o2 hoq hov, opt_int_same s1 s2 hsq hsv⟩

/-- C17 amended, at the handle `b1` with the calls `Play("x", "en", "", 50, -1)` and
`Play("x", "en", "", 50, -5)`, which send the same path. -/
theorem C17_Play_injective_without_amp_witness :
    ("x" : String) = "x" ∧ ("en" : String) = "en" ∧ ("" : String) = "" ∧
      sameInt 50 50 ∧ sameInt (-1) (-5) :=
  C17_Play_injective_without_amp ⟨"b1", 7⟩ "x" "en" "" "x" "en" "" 50 (-1) 50 (-5)
    (by decide) (by decide) (by decide) (by decide) (by decide) (by decide) (by decide)

end aricpp
